import Mathlib

/-!
Shallow embedding of the batched LAPACK dispatchers in
`cupy_backends/cupy_lapack.h` and of the soft-linking loader in
`cupy_backends/cuda/_softlink.pyx`.

Modelling conventions:
* Machine pointers are modelled as `Int` addresses counted in elements of
  the matrix element type (C pointer arithmetic `A += m * n` becomes
  `A + m * n` on the address).
* The vendor routine (cusolver / hipsolver function pointer) is an oracle
  `vendor : Nat → Int` giving the status returned by the i-th invocation.
  Each dispatcher additionally records the full argument tuple of every
  vendor invocation it performs, in order, as its trace.
* The C local `cusolverStatus_t status;` is *uninitialized* until the loop
  body runs once, so the dispatcher result is `Option Int`: `none` models
  the indeterminate value returned when the loop body never executes.
* `for (int i = 0; i < batch_size; i++)` with `batch_size : Int` executes
  `batch_size.toNat` iterations.
-/

/-- Argument tuple of one call to the `gesvd` vendor function, as built at
`cupy_lapack.h` line 63-65:
`func(handle, jobu, jobvt, m, n, A, m, S, U, m, VT, n, Work, buffersize, NULL, devInfo)`. -/
structure GesvdCall where
  handle : Int
  jobu : Char
  jobvt : Char
  m : Int
  n : Int
  a : Int
  lda : Int
  s : Int
  u : Int
  ldu : Int
  vt : Int
  ldvt : Int
  work : Int
  lwork : Int
  rwork : Option Int
  info : Int
  deriving Repr, DecidableEq

/-- Argument tuple of one call to the `geqrf` vendor function:
`func(handle, m, n, A, lda, Tau, Work, buffersize, devInfo)`. -/
structure GeqrfCall where
  handle : Int
  m : Int
  n : Int
  a : Int
  lda : Int
  tau : Int
  work : Int
  buffersize : Int
  info : Int
  deriving Repr, DecidableEq

/-- Argument tuple of one call to the `orgqr` vendor function:
`func(handle, m, n, k, A, lda, Tau, Work, buffersize, devInfo)`. -/
structure OrgqrCall where
  handle : Int
  m : Int
  n : Int
  k : Int
  a : Int
  lda : Int
  tau : Int
  work : Int
  buffersize : Int
  info : Int
  deriving Repr, DecidableEq

/-- The loop body of `gesvd_loop` (`cupy_lapack.h` lines 61-72, CUDA branch).
`fuel` is the number of remaining iterations, `i` the current loop index,
`A S U VT info` the current pointer values, and `acc` the current content of
the C local `status` (`none` = still uninitialized). -/
def gesvd_go (vendor : Nat → Int) (handle : Int) (jobu jobvt : Char)
    (m n k w b : Int) :
    Nat → Nat → Int → Int → Int → Int → Int → Option Int →
    Option Int × List GesvdCall
  | 0, _, _, _, _, _, _, acc => (acc, [])
  | fuel + 1, i, A, S, U, VT, info, _ =>
    let st := vendor i
    let call : GesvdCall :=
      { handle := handle, jobu := jobu, jobvt := jobvt, m := m, n := n,
        a := A, lda := m, s := S, u := U, ldu := m, vt := VT, ldvt := n,
        work := w, lwork := b, rwork := none, info := info }
    if st ≠ 0 then (some st, [call])
    else
      let rest := gesvd_go vendor handle jobu jobvt m n k w b fuel (i + 1)
        (A + m * n) (S + k)
        (U + (if jobu = 'A' then m * m else if jobu = 'S' then m * k else 0))
        (VT + (if jobvt = 'A' then n * n else if jobvt = 'S' then n * k else 0))
        (info + 1) (some st)
      (rest.1, call :: rest.2)

/-- `gesvd_loop` (CUDA branch, `cupy_lapack.h` lines 34-74): loop-based
batched gesvd.  `k = (m<n?m:n)` as in line 47. -/
def gesvd_loop (vendor : Nat → Int) (handle : Int) (jobu jobvt : Char)
    (m n a_ptr s_ptr u_ptr vt_ptr w_ptr buffersize info_ptr batch_size : Int) :
    Option Int × List GesvdCall :=
  let k := if m < n then m else n
  gesvd_go vendor handle jobu jobvt m n k w_ptr buffersize
    batch_size.toNat 0 a_ptr s_ptr u_ptr vt_ptr info_ptr none

/-- `gesvd_loop` (HIP branch, `cupy_lapack.h` lines 172-180): a dummy stub
that performs no vendor call and returns the literal status 0. -/
def gesvd_loop_hip (_handle : Int) (_jobu _jobvt : Char)
    (_m _n _a_ptr _s_ptr _u_ptr _vt_ptr _w_ptr _buffersize _info_ptr
     _batch_size : Int) :
    Option Int × List GesvdCall :=
  (some 0, [])

/-- The loop body of `geqrf_loop` (`cupy_lapack.h` lines 112-119 on CUDA;
the HIP branch, lines 226-233, has the identical loop body). -/
def geqrf_go (vendor : Nat → Int) (handle m n lda k w b : Int) :
    Nat → Nat → Int → Int → Int → Option Int → Option Int × List GeqrfCall
  | 0, _, _, _, _, acc => (acc, [])
  | fuel + 1, i, A, Tau, info, _ =>
    let st := vendor i
    let call : GeqrfCall :=
      { handle := handle, m := m, n := n, a := A, lda := lda, tau := Tau,
        work := w, buffersize := b, info := info }
    if st ≠ 0 then (some st, [call])
    else
      let rest := geqrf_go vendor handle m n lda k w b fuel (i + 1)
        (A + m * n) (Tau + k) (info + 1) (some st)
      (rest.1, call :: rest.2)

/-- `geqrf_loop` (CUDA branch, `cupy_lapack.h` lines 89-121). -/
def geqrf_loop (vendor : Nat → Int) (handle : Int)
    (m n a_ptr lda tau_ptr w_ptr buffersize info_ptr batch_size : Int) :
    Option Int × List GeqrfCall :=
  let k := if m < n then m else n
  geqrf_go vendor handle m n lda k w_ptr buffersize
    batch_size.toNat 0 a_ptr tau_ptr info_ptr none

/-- `geqrf_loop` (HIP branch, `cupy_lapack.h` lines 196-236).  Its loop body
is character-for-character the CUDA loop body (lines 226-233 = 112-119):
`Work`, `buffersize` and `devInfo` are still forwarded to every vendor call
and `devInfo` is still advanced by 1 per item. -/
def geqrf_loop_hip (vendor : Nat → Int) (handle : Int)
    (m n a_ptr lda tau_ptr w_ptr buffersize info_ptr batch_size : Int) :
    Option Int × List GeqrfCall :=
  let k := if m < n then m else n
  geqrf_go vendor handle m n lda k w_ptr buffersize
    batch_size.toNat 0 a_ptr tau_ptr info_ptr none

/-- The loop body of `orgqr_loop` (`cupy_lapack.h` lines 157-164 on CUDA;
the HIP branch, lines 272-279, has the identical loop body — in particular
both advance the matrix pointer by `m * origin_n`, lines 161 and 276). -/
def orgqr_go (vendor : Nat → Int) (handle m n k lda w b origin_n : Int) :
    Nat → Nat → Int → Int → Int → Option Int → Option Int × List OrgqrCall
  | 0, _, _, _, _, acc => (acc, [])
  | fuel + 1, i, A, Tau, info, _ =>
    let st := vendor i
    let call : OrgqrCall :=
      { handle := handle, m := m, n := n, k := k, a := A, lda := lda,
        tau := Tau, work := w, buffersize := b, info := info }
    if st ≠ 0 then (some st, [call])
    else
      let rest := orgqr_go vendor handle m n k lda w b origin_n fuel (i + 1)
        (A + m * origin_n) (Tau + k) (info + 1) (some st)
      (rest.1, call :: rest.2)

/-- `orgqr_loop` (CUDA branch, `cupy_lapack.h` lines 135-167). -/
def orgqr_loop (vendor : Nat → Int) (handle : Int)
    (m n k a_ptr lda tau_ptr w_ptr buffersize info_ptr batch_size
     origin_n : Int) :
    Option Int × List OrgqrCall :=
  orgqr_go vendor handle m n k lda w_ptr buffersize origin_n
    batch_size.toNat 0 a_ptr tau_ptr info_ptr none

/-- `orgqr_loop` (HIP branch, `cupy_lapack.h` lines 250-282); the loop body
is identical to the CUDA one, advancing `A` by `m * origin_n` (line 276). -/
def orgqr_loop_hip (vendor : Nat → Int) (handle : Int)
    (m n k a_ptr lda tau_ptr w_ptr buffersize info_ptr batch_size
     origin_n : Int) :
    Option Int × List OrgqrCall :=
  orgqr_go vendor handle m n k lda w_ptr buffersize origin_n
    batch_size.toNat 0 a_ptr tau_ptr info_ptr none

/-- `_fail_unsupported` message (`_softlink.pyx` lines 57-63): the
AssertionError text raised by the unsupported-stub entry point. -/
def unsupportedMessage : String :=
  "\n*** The requested function is not supported in the current version of\n*** the toolkit installed in your environment.\n***\n*** This is likely a bug in CuPy. Please report this issue to:\n***   https://github.com/cupy/cupy/issues\n"

/-- `_fail_not_found` message (`_softlink.pyx` lines 67-72). -/
def notFoundMessage : String :=
  "\n*** The requested function could not be found in the library.\n***\n*** This is likely a bug in CuPy. Please report this issue to:\n***   https://github.com/cupy/cupy/issues\n"

/-- `_fail_unsupported` (`_softlink.pyx` lines 55-63): invoking the
unsupported stub always raises; modelled as an `Except` value that is
always `.error`. -/
def fail_unsupported : Except String Int :=
  .error unsupportedMessage

/-- `_fail_not_found` (`_softlink.pyx` lines 65-72). -/
def fail_not_found : Except String Int :=
  .error notFoundMessage

/-- The three states of a resolved entry point returned by `SoftLink.get`. -/
inductive ResolvedEntryPoint where
  | valid (addr : Int)
  | unsupportedStub
  | notFoundStub
  deriving Repr, DecidableEq

/-- State of a `SoftLink` object (`_softlink.pyx` lines 16-34).  A loaded
library (`ctypes.CDLL` object) is modelled as a symbol table
`String → Option Int` mapping a symbol name to its address (`none` when
`getattr(..., name, None)` yields `None`); `cdll = none` models
`self._cdll is None`.  The Python attribute `prefix` is named `pfx`
(`prefix` is reserved in Lean); errors are modelled by their message. -/
structure SoftLink where
  error : Option String
  pfx : String
  cdll : Option (String → Option Int)

/-- `get_hipfuncname` (`_softlink.pyx` lines 7-14).  The external
`hipify_torch` table `CUDA_TO_HIP_MAPPINGS` — a list of dicts mapping a
CUDA name to a list of HIP equivalents — is a parameter, each dict an
association list.  Python `cuda_to_hip_map[cudafuncname][0]` indexes the
equivalents list; the result is `Option String` with `none` modelling the
IndexError raised when that list is empty. -/
def dictLookup : List (String × List String) → String → Option (List String)
  | [], _ => none
  | (key, val) :: rest, q => if key = q then some val else dictLookup rest q

/-- See `dictLookup`: the loop of `get_hipfuncname` over the mapping list,
returning the first equivalent of the first dict containing the name, or
the name unchanged when no dict contains it. -/
def get_hipfuncname (mappings : List (List (String × List String)))
    (cudafuncname : String) : Option String :=
  match mappings with
  | [] => some cudafuncname
  | d :: rest =>
    match dictLookup d cudafuncname with
    | some vs => vs.head?
    | none => get_hipfuncname rest cudafuncname

/-- The symbol search step of `SoftLink.get` (`_softlink.pyx` lines 48-52):
`getattr(self._cdll, funcname, None)` followed by the stub substitution on
`None` or the address dereference on success. -/
def symbolResult (lib : String → Option Int) (funcname : String) :
    ResolvedEntryPoint :=
  match lib funcname with
  | none => .notFoundStub
  | some addr => .valid addr

/-- `SoftLink.get` (`_softlink.pyx` lines 36-52).  `hipMode` models the
compile-time `IF CUPY_HIP_VERSION != 0`; `mappings` is the external
name-mapping table consulted by `get_hipfuncname` in that mode.  The result
is `none` only when `get_hipfuncname` raised (empty equivalents list). -/
def SoftLink.get (sl : SoftLink) (hipMode : Bool)
    (mappings : List (List (String × List String))) (name : String) :
    Option ResolvedEntryPoint :=
  match sl.cdll with
  | none => some .unsupportedStub
  | some lib =>
    let cudafuncname := sl.pfx ++ name
    if hipMode then
      match get_hipfuncname mappings cudafuncname with
      | none => none
      | some funcname => some (symbolResult lib funcname)
    else
      some (symbolResult lib cudafuncname)

/-- `SoftLink.__init__` (`_softlink.pyx` lines 17-34).  `openLib` models
`ctypes.CDLL`: it either returns a symbol table or raises an exception,
modelled as `.error e` where `e` stands for the Python
`f'\x7btype(e).__name__\x7d: \x7be\x7d'` rendering of the exception.  The
result is `.error msg` when `__init__` itself raises (mandatory load
failure), otherwise `.ok` with the constructed state and the list of
warnings emitted by `warnings.warn`. -/
def SoftLink.init (openLib : String → Except String (String → Option Int))
    (libname : Option String) (pfx : String) (mandatory : Bool) :
    Except String (SoftLink × List String) :=
  match libname with
  | none =>
    .ok ({ error := some "The library is unavailable in the current platform.",
           pfx := pfx, cdll := none }, [])
  | some lib =>
    match openLib lib with
    | .ok cdll => .ok ({ error := none, pfx := pfx, cdll := some cdll }, [])
    | .error e =>
      let msg := "CuPy failed to load " ++ lib ++ ": " ++ e
      if mandatory then .error msg
      else .ok ({ error := some e, pfx := pfx, cdll := none }, [msg])

/-- The argument tuple the i-th gesvd vendor call receives, given the base
pointer values at loop entry. -/
def gesvdCallAt (handle : Int) (jobu jobvt : Char) (m n k w b : Int)
    (A S U VT info : Int) (j : Nat) : GesvdCall :=
  { handle := handle, jobu := jobu, jobvt := jobvt, m := m, n := n,
    a := A + j * (m * n), lda := m,
    s := S + j * k,
    u := U + j * (if jobu = 'A' then m * m else if jobu = 'S' then m * k else 0),
    ldu := m,
    vt := VT + j * (if jobvt = 'A' then n * n else if jobvt = 'S' then n * k else 0),
    ldvt := n,
    work := w, lwork := b, rwork := none, info := info + j }

/-- The argument tuple the i-th geqrf vendor call receives. -/
def geqrfCallAt (handle m n lda k w b : Int) (A Tau info : Int) (j : Nat) :
    GeqrfCall :=
  { handle := handle, m := m, n := n, a := A + j * (m * n), lda := lda,
    tau := Tau + j * k, work := w, buffersize := b, info := info + j }

/-- The argument tuple the i-th orgqr vendor call receives: the matrix
pointer advances by `m * origin_n` per item. -/
def orgqrCallAt (handle m n k lda w b origin_n : Int) (A Tau info : Int)
    (j : Nat) : OrgqrCall :=
  { handle := handle, m := m, n := n, k := k, a := A + j * (m * origin_n),
    lda := lda, tau := Tau + j * k, work := w, buffersize := b,
    info := info + j }

theorem gesvd_go_getElem (vendor : Nat → Int) (handle : Int) (jobu jobvt : Char)
    (m n k w b : Int) :
    ∀ (fuel i : Nat) (A S U VT info : Int) (acc : Option Int) (j : Nat),
      j < ((gesvd_go vendor handle jobu jobvt m n k w b fuel i A S U VT info acc).2).length →
      ((gesvd_go vendor handle jobu jobvt m n k w b fuel i A S U VT info acc).2)[j]? =
        some (gesvdCallAt handle jobu jobvt m n k w b A S U VT info j) := by
  intro fuel
  induction fuel with
  | zero =>
    intro i A S U VT info acc j hj
    simp [gesvd_go] at hj
  | succ fuel ih =>
    intro i A S U VT info acc j hj
    by_cases hst : vendor i = 0
    · rw [gesvd_go] at hj ⊢
      simp only [hst, ne_eq, not_true_eq_false, if_false] at hj ⊢
      cases j with
      | zero => simp [gesvdCallAt]
      | succ j =>
        rw [List.getElem?_cons_succ]
        rw [ih (i + 1) (A + m * n) (S + k)
          (U + if jobu = 'A' then m * m else if jobu = 'S' then m * k else 0)
          (VT + if jobvt = 'A' then n * n else if jobvt = 'S' then n * k else 0)
          (info + 1) (some 0) j (by simpa using hj)]
        simp only [gesvdCallAt, Option.some.injEq, GesvdCall.mk.injEq]
        push_cast
        simp only [true_and, and_true]
        refine ⟨by ring, by ring, by ring, by ring, by ring⟩
    · rw [gesvd_go] at hj ⊢
      simp only [ne_eq, hst, not_false_eq_true, if_true] at hj ⊢
      have hj0 : j = 0 := by simpa using hj
      subst hj0
      simp [gesvdCallAt]

theorem gesvd_go_succ (vendor : Nat → Int) (handle : Int) (jobu jobvt : Char)
    (m n k w b : Int) :
    ∀ (fuel i : Nat) (A S U VT info : Int) (acc : Option Int),
      (∀ j, j < fuel → vendor (i + j) = 0) →
      (gesvd_go vendor handle jobu jobvt m n k w b fuel i A S U VT info acc).1 =
        (if fuel = 0 then acc else some 0) ∧
      (gesvd_go vendor handle jobu jobvt m n k w b fuel i A S U VT info acc).2.length = fuel := by
  intro fuel
  induction fuel with
  | zero =>
    intro i A S U VT info acc _
    simp [gesvd_go]
  | succ fuel ih =>
    intro i A S U VT info acc h
    have h0 : vendor i = 0 := by simpa using h 0 (Nat.succ_pos fuel)
    rw [gesvd_go]
    simp only [h0, ne_eq, not_true_eq_false, if_false]
    have hrec := ih (i + 1) (A + m * n) (S + k)
      (U + if jobu = 'A' then m * m else if jobu = 'S' then m * k else 0)
      (VT + if jobvt = 'A' then n * n else if jobvt = 'S' then n * k else 0)
      (info + 1) (some 0)
      (fun j hj => by
        have := h (j + 1) (by omega)
        rwa [show i + (j + 1) = i + 1 + j by omega] at this)
    refine ⟨?_, ?_⟩
    · rw [hrec.1]
      by_cases hf : fuel = 0 <;> simp [hf]
    · simp [hrec.2]

theorem gesvd_go_halt (vendor : Nat → Int) (handle : Int) (jobu jobvt : Char)
    (m n k w b : Int) :
    ∀ (fuel t i : Nat) (A S U VT info : Int) (acc : Option Int),
      t < fuel →
      (∀ j, j < t → vendor (i + j) = 0) →
      vendor (i + t) ≠ 0 →
      (gesvd_go vendor handle jobu jobvt m n k w b fuel i A S U VT info acc).1 =
        some (vendor (i + t)) ∧
      (gesvd_go vendor handle jobu jobvt m n k w b fuel i A S U VT info acc).2.length = t + 1 := by
  intro fuel
  induction fuel with
  | zero =>
    intro t i A S U VT info acc ht
    omega
  | succ fuel ih =>
    intro t i A S U VT info acc ht hpre hnz
    cases t with
    | zero =>
      have h0 : vendor i ≠ 0 := by simpa using hnz
      rw [gesvd_go]
      simp [h0]
    | succ t =>
      have h0 : vendor i = 0 := by simpa using hpre 0 (Nat.succ_pos t)
      rw [gesvd_go]
      simp only [h0, ne_eq, not_true_eq_false, if_false]
      have hrec := ih t (i + 1) (A + m * n) (S + k)
        (U + if jobu = 'A' then m * m else if jobu = 'S' then m * k else 0)
        (VT + if jobvt = 'A' then n * n else if jobvt = 'S' then n * k else 0)
        (info + 1) (some 0) (by omega)
        (fun j hj => by
          have := hpre (j + 1) (by omega)
          rwa [show i + (j + 1) = i + 1 + j by omega] at this)
        (by rwa [show i + 1 + t = i + (t + 1) by omega])
      refine ⟨?_, ?_⟩
      · rw [hrec.1, show i + 1 + t = i + (t + 1) by omega]
      · simp [hrec.2]

theorem gesvd_go_isSome (vendor : Nat → Int) (handle : Int) (jobu jobvt : Char)
    (m n k w b : Int) :
    ∀ (fuel i : Nat) (A S U VT info : Int) (x : Int),
      ((gesvd_go vendor handle jobu jobvt m n k w b fuel i A S U VT info (some x)).1).isSome := by
  intro fuel
  induction fuel with
  | zero =>
    intro i A S U VT info x
    simp [gesvd_go]
  | succ fuel ih =>
    intro i A S U VT info x
    rw [gesvd_go]
    by_cases hst : vendor i = 0
    · simp only [hst, ne_eq, not_true_eq_false, if_false]
      exact ih _ _ _ _ _ _ 0
    · simp [hst]

theorem geqrf_go_getElem (vendor : Nat → Int) (handle m n lda k w b : Int) :
    ∀ (fuel i : Nat) (A Tau info : Int) (acc : Option Int) (j : Nat),
      j < ((geqrf_go vendor handle m n lda k w b fuel i A Tau info acc).2).length →
      ((geqrf_go vendor handle m n lda k w b fuel i A Tau info acc).2)[j]? =
        some (geqrfCallAt handle m n lda k w b A Tau info j) := by
  intro fuel
  induction fuel with
  | zero =>
    intro i A Tau info acc j hj
    simp [geqrf_go] at hj
  | succ fuel ih =>
    intro i A Tau info acc j hj
    by_cases hst : vendor i = 0
    · rw [geqrf_go] at hj ⊢
      simp only [hst, ne_eq, not_true_eq_false, if_false] at hj ⊢
      cases j with
      | zero => simp [geqrfCallAt]
      | succ j =>
        rw [List.getElem?_cons_succ]
        rw [ih (i + 1) (A + m * n) (Tau + k) (info + 1) (some 0) j (by simpa using hj)]
        simp only [geqrfCallAt, Option.some.injEq, GeqrfCall.mk.injEq]
        push_cast
        simp only [true_and, and_true]
        refine ⟨by ring, by ring, by ring⟩
    · rw [geqrf_go] at hj ⊢
      simp only [ne_eq, hst, not_false_eq_true, if_true] at hj ⊢
      have hj0 : j = 0 := by simpa using hj
      subst hj0
      simp [geqrfCallAt]

theorem geqrf_go_succ (vendor : Nat → Int) (handle m n lda k w b : Int) :
    ∀ (fuel i : Nat) (A Tau info : Int) (acc : Option Int),
      (∀ j, j < fuel → vendor (i + j) = 0) →
      (geqrf_go vendor handle m n lda k w b fuel i A Tau info acc).1 =
        (if fuel = 0 then acc else some 0) ∧
      (geqrf_go vendor handle m n lda k w b fuel i A Tau info acc).2.length = fuel := by
  intro fuel
  induction fuel with
  | zero =>
    intro i A Tau info acc _
    simp [geqrf_go]
  | succ fuel ih =>
    intro i A Tau info acc h
    have h0 : vendor i = 0 := by simpa using h 0 (Nat.succ_pos fuel)
    rw [geqrf_go]
    simp only [h0, ne_eq, not_true_eq_false, if_false]
    have hrec := ih (i + 1) (A + m * n) (Tau + k) (info + 1) (some 0)
      (fun j hj => by
        have := h (j + 1) (by omega)
        rwa [show i + (j + 1) = i + 1 + j by omega] at this)
    refine ⟨?_, ?_⟩
    · rw [hrec.1]
      by_cases hf : fuel = 0 <;> simp [hf]
    · simp [hrec.2]

theorem geqrf_go_halt (vendor : Nat → Int) (handle m n lda k w b : Int) :
    ∀ (fuel t i : Nat) (A Tau info : Int) (acc : Option Int),
      t < fuel →
      (∀ j, j < t → vendor (i + j) = 0) →
      vendor (i + t) ≠ 0 →
      (geqrf_go vendor handle m n lda k w b fuel i A Tau info acc).1 =
        some (vendor (i + t)) ∧
      (geqrf_go vendor handle m n lda k w b fuel i A Tau info acc).2.length = t + 1 := by
  intro fuel
  induction fuel with
  | zero =>
    intro t i A Tau info acc ht
    omega
  | succ fuel ih =>
    intro t i A Tau info acc ht hpre hnz
    cases t with
    | zero =>
      have h0 : vendor i ≠ 0 := by simpa using hnz
      rw [geqrf_go]
      simp [h0]
    | succ t =>
      have h0 : vendor i = 0 := by simpa using hpre 0 (Nat.succ_pos t)
      rw [geqrf_go]
      simp only [h0, ne_eq, not_true_eq_false, if_false]
      have hrec := ih t (i + 1) (A + m * n) (Tau + k) (info + 1) (some 0) (by omega)
        (fun j hj => by
          have := hpre (j + 1) (by omega)
          rwa [show i + (j + 1) = i + 1 + j by omega] at this)
        (by rwa [show i + 1 + t = i + (t + 1) by omega])
      refine ⟨?_, ?_⟩
      · rw [hrec.1, show i + 1 + t = i + (t + 1) by omega]
      · simp [hrec.2]

theorem geqrf_go_isSome (vendor : Nat → Int) (handle m n lda k w b : Int) :
    ∀ (fuel i : Nat) (A Tau info : Int) (x : Int),
      ((geqrf_go vendor handle m n lda k w b fuel i A Tau info (some x)).1).isSome := by
  intro fuel
  induction fuel with
  | zero =>
    intro i A Tau info x
    simp [geqrf_go]
  | succ fuel ih =>
    intro i A Tau info x
    rw [geqrf_go]
    by_cases hst : vendor i = 0
    · simp only [hst, ne_eq, not_true_eq_false, if_false]
      exact ih _ _ _ _ 0
    · simp [hst]

theorem geqrf_go_oblivious (vendor : Nat → Int) :
    ∀ (fuel i : Nat) (acc : Option Int)
      (handle m n lda k w b A Tau info : Int)
      (handle' m' n' lda' k' w' b' A' Tau' info' : Int),
      (geqrf_go vendor handle m n lda k w b fuel i A Tau info acc).1 =
        (geqrf_go vendor handle' m' n' lda' k' w' b' fuel i A' Tau' info' acc).1 ∧
      (geqrf_go vendor handle m n lda k w b fuel i A Tau info acc).2.length =
        (geqrf_go vendor handle' m' n' lda' k' w' b' fuel i A' Tau' info' acc).2.length := by
  intro fuel
  induction fuel with
  | zero =>
    intro i acc handle m n lda k w b A Tau info handle' m' n' lda' k' w' b' A' Tau' info'
    simp [geqrf_go]
  | succ fuel ih =>
    intro i acc handle m n lda k w b A Tau info handle' m' n' lda' k' w' b' A' Tau' info'
    rw [geqrf_go, geqrf_go]
    by_cases hst : vendor i = 0
    · simp only [hst, ne_eq, not_true_eq_false, if_false]
      have hrec := ih (i + 1) (some 0) handle m n lda k w b (A + m * n) (Tau + k)
        (info + 1) handle' m' n' lda' k' w' b' (A' + m' * n') (Tau' + k') (info' + 1)
      simp [hrec.1, hrec.2]
    · simp [hst]

theorem orgqr_go_getElem (vendor : Nat → Int) (handle m n k lda w b origin_n : Int) :
    ∀ (fuel i : Nat) (A Tau info : Int) (acc : Option Int) (j : Nat),
      j < ((orgqr_go vendor handle m n k lda w b origin_n fuel i A Tau info acc).2).length →
      ((orgqr_go vendor handle m n k lda w b origin_n fuel i A Tau info acc).2)[j]? =
        some (orgqrCallAt handle m n k lda w b origin_n A Tau info j) := by
  intro fuel
  induction fuel with
  | zero =>
    intro i A Tau info acc j hj
    simp [orgqr_go] at hj
  | succ fuel ih =>
    intro i A Tau info acc j hj
    by_cases hst : vendor i = 0
    · rw [orgqr_go] at hj ⊢
      simp only [hst, ne_eq, not_true_eq_false, if_false] at hj ⊢
      cases j with
      | zero => simp [orgqrCallAt]
      | succ j =>
        rw [List.getElem?_cons_succ]
        rw [ih (i + 1) (A + m * origin_n) (Tau + k) (info + 1) (some 0) j
          (by simpa using hj)]
        simp only [orgqrCallAt, Option.some.injEq, OrgqrCall.mk.injEq]
        push_cast
        simp only [true_and, and_true]
        refine ⟨by ring, by ring, by ring⟩
    · rw [orgqr_go] at hj ⊢
      simp only [ne_eq, hst, not_false_eq_true, if_true] at hj ⊢
      have hj0 : j = 0 := by simpa using hj
      subst hj0
      simp [orgqrCallAt]

theorem orgqr_go_succ (vendor : Nat → Int) (handle m n k lda w b origin_n : Int) :
    ∀ (fuel i : Nat) (A Tau info : Int) (acc : Option Int),
      (∀ j, j < fuel → vendor (i + j) = 0) →
      (orgqr_go vendor handle m n k lda w b origin_n fuel i A Tau info acc).1 =
        (if fuel = 0 then acc else some 0) ∧
      (orgqr_go vendor handle m n k lda w b origin_n fuel i A Tau info acc).2.length = fuel := by
  intro fuel
  induction fuel with
  | zero =>
    intro i A Tau info acc _
    simp [orgqr_go]
  | succ fuel ih =>
    intro i A Tau info acc h
    have h0 : vendor i = 0 := by simpa using h 0 (Nat.succ_pos fuel)
    rw [orgqr_go]
    simp only [h0, ne_eq, not_true_eq_false, if_false]
    have hrec := ih (i + 1) (A + m * origin_n) (Tau + k) (info + 1) (some 0)
      (fun j hj => by
        have := h (j + 1) (by omega)
        rwa [show i + (j + 1) = i + 1 + j by omega] at this)
    refine ⟨?_, ?_⟩
    · rw [hrec.1]
      by_cases hf : fuel = 0 <;> simp [hf]
    · simp [hrec.2]

theorem orgqr_go_halt (vendor : Nat → Int) (handle m n k lda w b origin_n : Int) :
    ∀ (fuel t i : Nat) (A Tau info : Int) (acc : Option Int),
      t < fuel →
      (∀ j, j < t → vendor (i + j) = 0) →
      vendor (i + t) ≠ 0 →
      (orgqr_go vendor handle m n k lda w b origin_n fuel i A Tau info acc).1 =
        some (vendor (i + t)) ∧
      (orgqr_go vendor handle m n k lda w b origin_n fuel i A Tau info acc).2.length = t + 1 := by
  intro fuel
  induction fuel with
  | zero =>
    intro t i A Tau info acc ht
    omega
  | succ fuel ih =>
    intro t i A Tau info acc ht hpre hnz
    cases t with
    | zero =>
      have h0 : vendor i ≠ 0 := by simpa using hnz
      rw [orgqr_go]
      simp [h0]
    | succ t =>
      have h0 : vendor i = 0 := by simpa using hpre 0 (Nat.succ_pos t)
      rw [orgqr_go]
      simp only [h0, ne_eq, not_true_eq_false, if_false]
      have hrec := ih t (i + 1) (A + m * origin_n) (Tau + k) (info + 1) (some 0)
        (by omega)
        (fun j hj => by
          have := hpre (j + 1) (by omega)
          rwa [show i + (j + 1) = i + 1 + j by omega] at this)
        (by rwa [show i + 1 + t = i + (t + 1) by omega])
      refine ⟨?_, ?_⟩
      · rw [hrec.1, show i + 1 + t = i + (t + 1) by omega]
      · simp [hrec.2]

theorem orgqr_go_isSome (vendor : Nat → Int) (handle m n k lda w b origin_n : Int) :
    ∀ (fuel i : Nat) (A Tau info : Int) (x : Int),
      ((orgqr_go vendor handle m n k lda w b origin_n fuel i A Tau info (some x)).1).isSome := by
  intro fuel
  induction fuel with
  | zero =>
    intro i A Tau info x
    simp [orgqr_go]
  | succ fuel ih =>
    intro i A Tau info x
    rw [orgqr_go]
    by_cases hst : vendor i = 0
    · simp only [hst, ne_eq, not_true_eq_false, if_false]
      exact ih _ _ _ _ 0
    · simp [hst]

theorem orgqr_go_oblivious (vendor : Nat → Int) :
    ∀ (fuel i : Nat) (acc : Option Int)
      (handle m n k lda w b origin_n A Tau info : Int)
      (handle' m' n' k' lda' w' b' origin_n' A' Tau' info' : Int),
      (orgqr_go vendor handle m n k lda w b origin_n fuel i A Tau info acc).1 =
        (orgqr_go vendor handle' m' n' k' lda' w' b' origin_n' fuel i A' Tau' info' acc).1 ∧
      (orgqr_go vendor handle m n k lda w b origin_n fuel i A Tau info acc).2.length =
        (orgqr_go vendor handle' m' n' k' lda' w' b' origin_n' fuel i A' Tau' info' acc).2.length := by
  intro fuel
  induction fuel with
  | zero =>
    intro i acc handle m n k lda w b origin_n A Tau info
      handle' m' n' k' lda' w' b' origin_n' A' Tau' info'
    simp [orgqr_go]
  | succ fuel ih =>
    intro i acc handle m n k lda w b origin_n A Tau info
      handle' m' n' k' lda' w' b' origin_n' A' Tau' info'
    rw [orgqr_go, orgqr_go]
    by_cases hst : vendor i = 0
    · simp only [hst, ne_eq, not_true_eq_false, if_false]
      have hrec := ih (i + 1) (some 0) handle m n k lda w b origin_n
        (A + m * origin_n) (Tau + k) (info + 1) handle' m' n' k' lda' w' b' origin_n'
        (A' + m' * origin_n') (Tau' + k') (info' + 1)
      simp [hrec.1, hrec.2]
    · simp [hst]

theorem map_of_getElem {α β : Type} (l : List α) (f : Nat → α) (proj : α → β)
    (h : ∀ j, j < l.length → l[j]? = some (f j)) :
    l.map proj = (List.range l.length).map (fun j => proj (f j)) := by
  apply List.ext_getElem
  · simp
  · intro i h1 h2
    simp only [List.getElem_map, List.getElem_range]
    have hi : i < l.length := by simpa using h1
    have := h i hi
    rw [List.getElem?_eq_getElem hi] at this
    simp only [Option.some.injEq] at this
    rw [this]

theorem get_hipfuncname_found (q B : String) (vs : List String) :
    ∀ (mappings : List (List (String × List String)))
      (d : List (String × List String)),
      mappings.find? (fun d => (dictLookup d q).isSome) = some d →
      dictLookup d q = some (B :: vs) →
      get_hipfuncname mappings q = some B := by
  intro mappings
  induction mappings with
  | nil =>
    intro d h
    simp [List.find?] at h
  | cons d0 rest ih =>
    intro d hfind hd
    rw [get_hipfuncname]
    rw [List.find?_cons] at hfind
    by_cases h0 : (dictLookup d0 q).isSome
    · simp only [h0, if_true] at hfind
      have hd0 : d0 = d := by simpa using hfind
      subst hd0
      rw [hd]
      rfl
    · have hnone : dictLookup d0 q = none := Option.not_isSome_iff_eq_none.mp (by simpa using h0)
      simp only [hnone, Option.isSome_none, Bool.false_eq_true, if_false] at hfind
      rw [hnone]
      exact ih d hfind hd

theorem get_hipfuncname_no_match (q : String) :
    ∀ (mappings : List (List (String × List String))),
      (∀ d ∈ mappings, dictLookup d q = none) →
      get_hipfuncname mappings q = some q := by
  intro mappings
  induction mappings with
  | nil =>
    intro _
    rw [get_hipfuncname]
  | cons d0 rest ih =>
    intro h
    rw [get_hipfuncname]
    rw [h d0 (by simp)]
    exact ih (fun d hd => h d (by simp [hd]))

theorem gesvd_go_pos_isSome (vendor : Nat → Int) (handle : Int) (jobu jobvt : Char)
    (m n k w b : Int) (fuel i : Nat) (A S U VT info : Int) (acc : Option Int)
    (hf : 0 < fuel) :
    ((gesvd_go vendor handle jobu jobvt m n k w b fuel i A S U VT info acc).1).isSome := by
  obtain ⟨fuel', rfl⟩ : ∃ f, fuel = f + 1 := ⟨fuel - 1, by omega⟩
  rw [gesvd_go]
  by_cases hst : vendor i = 0
  · simp only [hst, ne_eq, not_true_eq_false, if_false]
    exact gesvd_go_isSome vendor handle jobu jobvt m n k w b fuel' _ _ _ _ _ _ 0
  · simp [hst]

theorem geqrf_go_pos_isSome (vendor : Nat → Int) (handle m n lda k w b : Int)
    (fuel i : Nat) (A Tau info : Int) (acc : Option Int) (hf : 0 < fuel) :
    ((geqrf_go vendor handle m n lda k w b fuel i A Tau info acc).1).isSome := by
  obtain ⟨fuel', rfl⟩ : ∃ f, fuel = f + 1 := ⟨fuel - 1, by omega⟩
  rw [geqrf_go]
  by_cases hst : vendor i = 0
  · simp only [hst, ne_eq, not_true_eq_false, if_false]
    exact geqrf_go_isSome vendor handle m n lda k w b fuel' _ _ _ _ 0
  · simp [hst]

theorem orgqr_go_pos_isSome (vendor : Nat → Int) (handle m n k lda w b origin_n : Int)
    (fuel i : Nat) (A Tau info : Int) (acc : Option Int) (hf : 0 < fuel) :
    ((orgqr_go vendor handle m n k lda w b origin_n fuel i A Tau info acc).1).isSome := by
  obtain ⟨fuel', rfl⟩ : ∃ f, fuel = f + 1 := ⟨fuel - 1, by omega⟩
  rw [orgqr_go]
  by_cases hst : vendor i = 0
  · simp only [hst, ne_eq, not_true_eq_false, if_false]
    exact orgqr_go_isSome vendor handle m n k lda w b origin_n fuel' _ _ _ _ 0
  · simp [hst]

/-- C7: on the HIP backend, `gesvd_loop` is a no-op that returns status 0
immediately for every input, including every batch size, performing no
vendor call (empty trace, so no buffer is handed to any vendor routine). -/
theorem c7_hip_gesvd_noop (handle : Int) (jobu jobvt : Char)
    (m n a_ptr s_ptr u_ptr vt_ptr w_ptr buffersize info_ptr batch_size : Int) :
    gesvd_loop_hip handle jobu jobvt m n a_ptr s_ptr u_ptr vt_ptr w_ptr
      buffersize info_ptr batch_size = (some 0, []) := rfl

/-- C5: invoking either stub raises a diagnostic error: both stubs are
`.error` values carrying the message of the corresponding source string,
never `.ok`; each message names its cause (operation unsupported in the
installed toolkit vs. symbol not found in the library) and contains the
issue-tracker URL. -/
theorem c5_stub_invocation_fails :
    fail_unsupported = Except.error unsupportedMessage ∧
    fail_not_found = Except.error notFoundMessage ∧
    (∀ v : Int, fail_unsupported ≠ Except.ok v) ∧
    (∀ v : Int, fail_not_found ≠ Except.ok v) ∧
    (∃ s1 s2, unsupportedMessage =
      s1 ++ "https://github.com/cupy/cupy/issues" ++ s2) ∧
    (∃ s1 s2, notFoundMessage =
      s1 ++ "https://github.com/cupy/cupy/issues" ++ s2) ∧
    (∃ s1 s2, unsupportedMessage =
      s1 ++ "The requested function is not supported in the current version of" ++ s2) ∧
    (∃ s1 s2, notFoundMessage =
      s1 ++ "The requested function could not be found in the library" ++ s2) := by
  refine ⟨rfl, rfl,
    fun v h => by simp [fail_unsupported] at h,
    fun v h => by simp [fail_not_found] at h,
    ⟨"\n*** The requested function is not supported in the current version of\n*** the toolkit installed in your environment.\n***\n*** This is likely a bug in CuPy. Please report this issue to:\n***   ", "\n", by rfl⟩,
    ⟨"\n*** The requested function could not be found in the library.\n***\n*** This is likely a bug in CuPy. Please report this issue to:\n***   ", "\n", by rfl⟩,
    ⟨"\n*** ", "\n*** the toolkit installed in your environment.\n***\n*** This is likely a bug in CuPy. Please report this issue to:\n***   https://github.com/cupy/cupy/issues\n", by rfl⟩,
    ⟨"\n*** ", ".\n***\n*** This is likely a bug in CuPy. Please report this issue to:\n***   https://github.com/cupy/cupy/issues\n", by rfl⟩⟩

/-- C6: constructing with `mandatory = true` and an unopenable library
raises synchronously during construction; with `mandatory = false` the same
failure records the error, emits exactly one warning, and leaves a failed
state from which every lookup returns the unsupported stub. -/
theorem c6_mandatory_fail_fast
    (openLib : String → Except String (String → Option Int))
    (lib pfx e : String) (h : openLib lib = .error e) :
    SoftLink.init openLib (some lib) pfx true =
      .error ("CuPy failed to load " ++ lib ++ ": " ++ e) ∧
    SoftLink.init openLib (some lib) pfx false =
      .ok ({ error := some e, pfx := pfx, cdll := none },
        ["CuPy failed to load " ++ lib ++ ": " ++ e]) ∧
    (∀ (hipMode : Bool) (mappings : List (List (String × List String)))
       (name : String),
      SoftLink.get { error := some e, pfx := pfx, cdll := none } hipMode
        mappings name = some ResolvedEntryPoint.unsupportedStub) := by
  refine ⟨?_, ?_, ?_⟩ <;> simp [SoftLink.init, SoftLink.get, h]

theorem c6_witness :
    SoftLink.init (fun _ => .error "OSError: missing") (some "libfoo.so") "cu" true =
      .error ("CuPy failed to load " ++ "libfoo.so" ++ ": " ++ "OSError: missing") ∧
    SoftLink.init (fun _ => .error "OSError: missing") (some "libfoo.so") "cu" false =
      .ok ({ error := some "OSError: missing", pfx := "cu", cdll := none },
        ["CuPy failed to load " ++ "libfoo.so" ++ ": " ++ "OSError: missing"]) ∧
    (∀ (hipMode : Bool) (mappings : List (List (String × List String)))
       (name : String),
      SoftLink.get { error := some "OSError: missing", pfx := "cu", cdll := none }
        hipMode mappings name = some ResolvedEntryPoint.unsupportedStub) :=
  c6_mandatory_fail_fast (fun _ => .error "OSError: missing") "libfoo.so" "cu"
    "OSError: missing" rfl

/-- C4: in cross-vendor (HIP) mode, when the qualified name `pfx ++ name`
is a key of some dict of the mapping table, resolution uses the first
listed equivalent of the first dict containing the key as the symbol to
search for; when no dict contains the key, it searches for the qualified
name unchanged. -/
theorem c4_cross_vendor_name_resolution
    (mappings : List (List (String × List String)))
    (pfx name : String) (lib : String → Option Int) (err : Option String) :
    (∀ (d : List (String × List String)) (B : String) (vs : List String),
      mappings.find? (fun d => (dictLookup d (pfx ++ name)).isSome) = some d →
      dictLookup d (pfx ++ name) = some (B :: vs) →
      get_hipfuncname mappings (pfx ++ name) = some B ∧
      SoftLink.get ⟨err, pfx, some lib⟩ true mappings name =
        some (symbolResult lib B)) ∧
    ((∀ d ∈ mappings, dictLookup d (pfx ++ name) = none) →
      get_hipfuncname mappings (pfx ++ name) = some (pfx ++ name) ∧
      SoftLink.get ⟨err, pfx, some lib⟩ true mappings name =
        some (symbolResult lib (pfx ++ name))) := by
  constructor
  · intro d B vs hfind hd
    have hname := get_hipfuncname_found (pfx ++ name) B vs mappings d hfind hd
    exact ⟨hname, by simp [SoftLink.get, hname]⟩
  · intro h
    have hname := get_hipfuncname_no_match (pfx ++ name) mappings h
    exact ⟨hname, by simp [SoftLink.get, hname]⟩

theorem c4_witness :
    get_hipfuncname [[("cuFoo", ["hipFoo", "rocFoo"])]] ("cu" ++ "Foo") =
      some "hipFoo" ∧
    SoftLink.get ⟨none, "cu", some (fun s => if s = "hipFoo" then some 42 else none)⟩
      true [[("cuFoo", ["hipFoo", "rocFoo"])]] "Foo" =
      some (symbolResult (fun s => if s = "hipFoo" then some 42 else none) "hipFoo") :=
  (c4_cross_vendor_name_resolution [[("cuFoo", ["hipFoo", "rocFoo"])]] "cu" "Foo"
      (fun s => if s = "hipFoo" then some 42 else none) none).1
    [("cuFoo", ["hipFoo", "rocFoo"])] "hipFoo" ["rocFoo"] (by rfl) (by rfl)

/-- C9: when `batch_size <= 0` every loop-based dispatcher performs zero
vendor calls and returns the never-assigned local status (`none`); when
`batch_size >= 1` the returned status is defined (`isSome`). -/
theorem c9_empty_batch_unspecified
    (vendor : Nat → Int) (handle : Int) (jobu jobvt : Char)
    (m n k a_ptr s_ptr u_ptr vt_ptr lda tau_ptr w_ptr buffersize info_ptr
     batch_size origin_n : Int) :
    (batch_size ≤ 0 →
      gesvd_loop vendor handle jobu jobvt m n a_ptr s_ptr u_ptr vt_ptr w_ptr
        buffersize info_ptr batch_size = (none, []) ∧
      geqrf_loop vendor handle m n a_ptr lda tau_ptr w_ptr buffersize info_ptr
        batch_size = (none, []) ∧
      geqrf_loop_hip vendor handle m n a_ptr lda tau_ptr w_ptr buffersize
        info_ptr batch_size = (none, []) ∧
      orgqr_loop vendor handle m n k a_ptr lda tau_ptr w_ptr buffersize
        info_ptr batch_size origin_n = (none, []) ∧
      orgqr_loop_hip vendor handle m n k a_ptr lda tau_ptr w_ptr buffersize
        info_ptr batch_size origin_n = (none, [])) ∧
    (1 ≤ batch_size →
      ((gesvd_loop vendor handle jobu jobvt m n a_ptr s_ptr u_ptr vt_ptr w_ptr
          buffersize info_ptr batch_size).1.isSome ∧
       (geqrf_loop vendor handle m n a_ptr lda tau_ptr w_ptr buffersize
          info_ptr batch_size).1.isSome ∧
       (geqrf_loop_hip vendor handle m n a_ptr lda tau_ptr w_ptr buffersize
          info_ptr batch_size).1.isSome ∧
       (orgqr_loop vendor handle m n k a_ptr lda tau_ptr w_ptr buffersize
          info_ptr batch_size origin_n).1.isSome ∧
       (orgqr_loop_hip vendor handle m n k a_ptr lda tau_ptr w_ptr buffersize
          info_ptr batch_size origin_n).1.isSome)) := by
  constructor
  · intro h
    have h0 : batch_size.toNat = 0 := Int.toNat_of_nonpos h
    refine ⟨?_, ?_, ?_, ?_, ?_⟩ <;>
      simp [gesvd_loop, geqrf_loop, geqrf_loop_hip, orgqr_loop, orgqr_loop_hip,
        h0, gesvd_go, geqrf_go, orgqr_go]
  · intro h
    have h0 : 0 < batch_size.toNat := by omega
    refine ⟨?_, ?_, ?_, ?_, ?_⟩
    · simp only [gesvd_loop]
      exact gesvd_go_pos_isSome vendor handle jobu jobvt m n
        (if m < n then m else n) w_ptr buffersize batch_size.toNat 0
        a_ptr s_ptr u_ptr vt_ptr info_ptr none h0
    · simp only [geqrf_loop]
      exact geqrf_go_pos_isSome vendor handle m n lda
        (if m < n then m else n) w_ptr buffersize batch_size.toNat 0
        a_ptr tau_ptr info_ptr none h0
    · simp only [geqrf_loop_hip]
      exact geqrf_go_pos_isSome vendor handle m n lda
        (if m < n then m else n) w_ptr buffersize batch_size.toNat 0
        a_ptr tau_ptr info_ptr none h0
    · simp only [orgqr_loop]
      exact orgqr_go_pos_isSome vendor handle m n k lda w_ptr buffersize
        origin_n batch_size.toNat 0 a_ptr tau_ptr info_ptr none h0
    · simp only [orgqr_loop_hip]
      exact orgqr_go_pos_isSome vendor handle m n k lda w_ptr buffersize
        origin_n batch_size.toNat 0 a_ptr tau_ptr info_ptr none h0

theorem c9_witness :
    (gesvd_loop (fun _ => 0) 0 'A' 'A' 2 2 0 0 0 0 0 0 0 0 = (none, []) ∧
     geqrf_loop (fun _ => 0) 0 2 2 0 2 0 0 0 0 0 = (none, []) ∧
     geqrf_loop_hip (fun _ => 0) 0 2 2 0 2 0 0 0 0 0 = (none, []) ∧
     orgqr_loop (fun _ => 0) 0 2 2 2 0 2 0 0 0 0 0 2 = (none, []) ∧
     orgqr_loop_hip (fun _ => 0) 0 2 2 2 0 2 0 0 0 0 0 2 = (none, [])) ∧
    ((gesvd_loop (fun _ => 0) 0 'A' 'A' 2 2 0 0 0 0 0 0 0 1).1.isSome ∧
     (geqrf_loop (fun _ => 0) 0 2 2 0 2 0 0 0 0 1).1.isSome ∧
     (geqrf_loop_hip (fun _ => 0) 0 2 2 0 2 0 0 0 0 1).1.isSome ∧
     (orgqr_loop (fun _ => 0) 0 2 2 2 0 2 0 0 0 0 1 2).1.isSome ∧
     (orgqr_loop_hip (fun _ => 0) 0 2 2 2 0 2 0 0 0 0 1 2).1.isSome) :=
  ⟨(c9_empty_batch_unspecified (fun _ => 0) 0 'A' 'A' 2 2 2 0 0 0 0 2 0 0 0 0 0 2).1
      (by decide),
   (c9_empty_batch_unspecified (fun _ => 0) 0 'A' 'A' 2 2 2 0 0 0 0 2 0 0 0 0 1 2).2
      (by decide)⟩

/-- C1: for every batch and every index t with `t < batch_size`, if the
vendor function returns 0 for items 0..t-1 and nonzero for item t, then
each loop dispatcher performs exactly t+1 vendor calls and returns the
nonzero status of call t verbatim. -/
theorem c1_halt_on_first_nonzero
    (vendor : Nat → Int) (t : Nat) (batch_size : Int)
    (hbatch : (t : Int) < batch_size)
    (hpre : ∀ j, j < t → vendor j = 0)
    (hnz : vendor t ≠ 0)
    (handle : Int) (jobu jobvt : Char)
    (m n k a_ptr s_ptr u_ptr vt_ptr lda tau_ptr w_ptr buffersize info_ptr
     origin_n : Int) :
    ((gesvd_loop vendor handle jobu jobvt m n a_ptr s_ptr u_ptr vt_ptr w_ptr
        buffersize info_ptr batch_size).1 = some (vendor t) ∧
     (gesvd_loop vendor handle jobu jobvt m n a_ptr s_ptr u_ptr vt_ptr w_ptr
        buffersize info_ptr batch_size).2.length = t + 1) ∧
    ((geqrf_loop vendor handle m n a_ptr lda tau_ptr w_ptr buffersize info_ptr
        batch_size).1 = some (vendor t) ∧
     (geqrf_loop vendor handle m n a_ptr lda tau_ptr w_ptr buffersize info_ptr
        batch_size).2.length = t + 1) ∧
    ((orgqr_loop vendor handle m n k a_ptr lda tau_ptr w_ptr buffersize
        info_ptr batch_size origin_n).1 = some (vendor t) ∧
     (orgqr_loop vendor handle m n k a_ptr lda tau_ptr w_ptr buffersize
        info_ptr batch_size origin_n).2.length = t + 1) := by
  have ht : t < batch_size.toNat := by omega
  have hpre0 : ∀ j, j < t → vendor (0 + j) = 0 := fun j hj => by
    simpa using hpre j hj
  have hnz0 : vendor (0 + t) ≠ 0 := by simpa using hnz
  refine ⟨?_, ?_, ?_⟩
  · have h := gesvd_go_halt vendor handle jobu jobvt m n
      (if m < n then m else n) w_ptr buffersize batch_size.toNat t 0
      a_ptr s_ptr u_ptr vt_ptr info_ptr none ht hpre0 hnz0
    simpa [gesvd_loop] using h
  · have h := geqrf_go_halt vendor handle m n lda (if m < n then m else n)
      w_ptr buffersize batch_size.toNat t 0 a_ptr tau_ptr info_ptr none
      ht hpre0 hnz0
    simpa [geqrf_loop] using h
  · have h := orgqr_go_halt vendor handle m n k lda w_ptr buffersize origin_n
      batch_size.toNat t 0 a_ptr tau_ptr info_ptr none ht hpre0 hnz0
    simpa [orgqr_loop] using h

theorem c1_witness :
    ((gesvd_loop (fun i => if i = 1 then 7 else 0) 0 'A' 'A' 2 2 0 0 0 0 0 0 0
        3).1 = some 7 ∧
     (gesvd_loop (fun i => if i = 1 then 7 else 0) 0 'A' 'A' 2 2 0 0 0 0 0 0 0
        3).2.length = 1 + 1) ∧
    ((geqrf_loop (fun i => if i = 1 then 7 else 0) 0 2 2 0 2 0 0 0 0
        3).1 = some 7 ∧
     (geqrf_loop (fun i => if i = 1 then 7 else 0) 0 2 2 0 2 0 0 0 0
        3).2.length = 1 + 1) ∧
    ((orgqr_loop (fun i => if i = 1 then 7 else 0) 0 2 2 2 0 2 0 0 0 0
        3 2).1 = some 7 ∧
     (orgqr_loop (fun i => if i = 1 then 7 else 0) 0 2 2 2 0 2 0 0 0 0
        3 2).2.length = 1 + 1) :=
  c1_halt_on_first_nonzero (fun i => if i = 1 then 7 else 0) 1 3
    (by decide) (by decide) (by decide) 0 'A' 'A' 2 2 2 0 0 0 0 2 0 0 0 0 2

/-- C2: for a successful batch, the i-th gesvd vendor call receives matrix
address `a_ptr + i*m*n`, singular values at `s_ptr + i*min(m,n)`, info at
`info_ptr + i`, U advanced by `m*m` per item when jobu = 'A', by
`m*min(m,n)` when jobu = 'S', else 0, and VT advanced by `n*n` when
jobvt = 'A', by `n*min(m,n)` when jobvt = 'S', else 0; the workspace is
reused verbatim in every call. -/
theorem c2_gesvd_buffer_offsets
    (vendor : Nat → Int) (handle : Int) (jobu jobvt : Char)
    (m n a_ptr s_ptr u_ptr vt_ptr w_ptr buffersize info_ptr batch_size : Int)
    (hsucc : ∀ j : Nat, (j : Int) < batch_size → vendor j = 0)
    (i : Nat) (hi : (i : Int) < batch_size) :
    (gesvd_loop vendor handle jobu jobvt m n a_ptr s_ptr u_ptr vt_ptr w_ptr
      buffersize info_ptr batch_size).2.length = batch_size.toNat ∧
    ((gesvd_loop vendor handle jobu jobvt m n a_ptr s_ptr u_ptr vt_ptr w_ptr
      buffersize info_ptr batch_size).2)[i]? = some
      { handle := handle, jobu := jobu, jobvt := jobvt, m := m, n := n,
        a := a_ptr + i * (m * n), lda := m,
        s := s_ptr + i * min m n,
        u := u_ptr + i * (if jobu = 'A' then m * m
          else if jobu = 'S' then m * min m n else 0),
        ldu := m,
        vt := vt_ptr + i * (if jobvt = 'A' then n * n
          else if jobvt = 'S' then n * min m n else 0),
        ldvt := n,
        work := w_ptr, lwork := buffersize, rwork := none,
        info := info_ptr + i } := by
  have hk : (if m < n then m else n) = min m n := by
    split_ifs with h
    · exact (min_eq_left h.le).symm
    · exact (min_eq_right (not_lt.mp h)).symm
  have hlen := (gesvd_go_succ vendor handle jobu jobvt m n
    (if m < n then m else n) w_ptr buffersize batch_size.toNat 0
    a_ptr s_ptr u_ptr vt_ptr info_ptr none
    (fun j hj => by simpa using hsucc j (by omega))).2
  constructor
  · simpa [gesvd_loop] using hlen
  · have hi' : i <
        (gesvd_go vendor handle jobu jobvt m n (if m < n then m else n)
          w_ptr buffersize batch_size.toNat 0 a_ptr s_ptr u_ptr vt_ptr
          info_ptr none).2.length := by
      rw [hlen]
      omega
    have h := gesvd_go_getElem vendor handle jobu jobvt m n
      (if m < n then m else n) w_ptr buffersize batch_size.toNat 0
      a_ptr s_ptr u_ptr vt_ptr info_ptr none i hi'
    rw [show (gesvd_loop vendor handle jobu jobvt m n a_ptr s_ptr u_ptr vt_ptr
        w_ptr buffersize info_ptr batch_size).2 =
        (gesvd_go vendor handle jobu jobvt m n (if m < n then m else n)
          w_ptr buffersize batch_size.toNat 0 a_ptr s_ptr u_ptr vt_ptr
          info_ptr none).2 from rfl]
    rw [h]
    simp only [gesvdCallAt, hk]

theorem c2_witness :
    (gesvd_loop (fun _ => 0) 0 'A' 'S' 2 3 100 200 300 400 500 16 600
      2).2.length = (2 : Int).toNat ∧
    ((gesvd_loop (fun _ => 0) 0 'A' 'S' 2 3 100 200 300 400 500 16 600
      2).2)[(1 : Nat)]? = some
      { handle := 0, jobu := 'A', jobvt := 'S', m := 2, n := 3,
        a := 100 + (1 : Nat) * (2 * 3), lda := 2,
        s := 200 + (1 : Nat) * min 2 3,
        u := 300 + (1 : Nat) * (if 'A' = 'A' then 2 * 2
          else if 'A' = 'S' then 2 * min 2 3 else 0),
        ldu := 2,
        vt := 400 + (1 : Nat) * (if 'S' = 'A' then 3 * 3
          else if 'S' = 'S' then 3 * min 2 3 else 0),
        ldvt := 3,
        work := 500, lwork := 16, rwork := none,
        info := 600 + (1 : Nat) } :=
  c2_gesvd_buffer_offsets (fun _ => 0) 0 'A' 'S' 2 3 100 200 300 400 500 16 600
    2 (fun j hj => rfl) 1 (by decide)

/-- C3 counterexample: at m = 2, n = 3, origin_n = 5 with a successful
2-item batch, the CUDA and HIP variants of `orgqr_loop` produce identical
results and both advance the matrix pointer by m * origin_n = 10 elements
per item (addresses 0 then 10) — not by m * n = 6: the claimed difference
between the two variants does not exist in the code. -/
theorem c3_counterexample :
    (orgqr_loop (fun _ => 0) 1 2 3 2 0 2 100 200 16 300 2 5).2.map
      OrgqrCall.a = [0, 10] ∧
    (orgqr_loop_hip (fun _ => 0) 1 2 3 2 0 2 100 200 16 300 2 5).2.map
      OrgqrCall.a = [0, 10] ∧
    orgqr_loop (fun _ => 0) 1 2 3 2 0 2 100 200 16 300 2 5 =
      orgqr_loop_hip (fun _ => 0) 1 2 3 2 0 2 100 200 16 300 2 5 ∧
    ((2 * 3 : Int) == 10) = false ∧ ((2 * 5 : Int) == 10) = true := by
  refine ⟨by decide, by decide, rfl, by decide, by decide⟩

/-- C3 amended: the two backend variants of `orgqr_loop` do not differ in
their pointer arithmetic — they are extensionally the same dispatcher, and
both advance the matrix base pointer by `m * origin_n` elements per batch
item. -/
theorem c3_amended_both_advance_origin_n
    (vendor : Nat → Int) (handle m n k a_ptr lda tau_ptr w_ptr buffersize
     info_ptr batch_size origin_n : Int) :
    orgqr_loop vendor handle m n k a_ptr lda tau_ptr w_ptr buffersize
      info_ptr batch_size origin_n =
      orgqr_loop_hip vendor handle m n k a_ptr lda tau_ptr w_ptr buffersize
        info_ptr batch_size origin_n ∧
    (orgqr_loop vendor handle m n k a_ptr lda tau_ptr w_ptr buffersize
      info_ptr batch_size origin_n).2.map OrgqrCall.a =
      (List.range (orgqr_loop vendor handle m n k a_ptr lda tau_ptr w_ptr
        buffersize info_ptr batch_size origin_n).2.length).map
        (fun j : Nat => a_ptr + (j : Int) * (m * origin_n)) := by
  refine ⟨rfl, ?_⟩
  have h := map_of_getElem
    (orgqr_go vendor handle m n k lda w_ptr buffersize origin_n
      batch_size.toNat 0 a_ptr tau_ptr info_ptr none).2
    (orgqrCallAt handle m n k lda w_ptr buffersize origin_n a_ptr tau_ptr
      info_ptr)
    OrgqrCall.a
    (fun j hj => orgqr_go_getElem vendor handle m n k lda w_ptr buffersize
      origin_n batch_size.toNat 0 a_ptr tau_ptr info_ptr none j hj)
  simpa [orgqr_loop, orgqrCallAt] using h

theorem geqrf_loop_field_maps
    (vendor : Nat → Int)
    (handle m n a_ptr lda tau_ptr w b ip batch_size : Int) :
    (geqrf_loop vendor handle m n a_ptr lda tau_ptr w b ip batch_size).2.map
      GeqrfCall.a =
      (List.range (geqrf_loop vendor handle m n a_ptr lda tau_ptr w b ip
        batch_size).2.length).map (fun j : Nat => a_ptr + (j : Int) * (m * n)) ∧
    (geqrf_loop vendor handle m n a_ptr lda tau_ptr w b ip batch_size).2.map
      GeqrfCall.tau =
      (List.range (geqrf_loop vendor handle m n a_ptr lda tau_ptr w b ip
        batch_size).2.length).map
        (fun j : Nat => tau_ptr + (j : Int) * (if m < n then m else n)) ∧
    (geqrf_loop vendor handle m n a_ptr lda tau_ptr w b ip batch_size).2.map
      GeqrfCall.lda =
      List.replicate (geqrf_loop vendor handle m n a_ptr lda tau_ptr w b ip
        batch_size).2.length lda ∧
    (geqrf_loop vendor handle m n a_ptr lda tau_ptr w b ip batch_size).2.map
      GeqrfCall.work =
      List.replicate (geqrf_loop vendor handle m n a_ptr lda tau_ptr w b ip
        batch_size).2.length w ∧
    (geqrf_loop vendor handle m n a_ptr lda tau_ptr w b ip batch_size).2.map
      GeqrfCall.buffersize =
      List.replicate (geqrf_loop vendor handle m n a_ptr lda tau_ptr w b ip
        batch_size).2.length b ∧
    (geqrf_loop vendor handle m n a_ptr lda tau_ptr w b ip batch_size).2.map
      GeqrfCall.info =
      (List.range (geqrf_loop vendor handle m n a_ptr lda tau_ptr w b ip
        batch_size).2.length).map (fun j : Nat => ip + (j : Int)) := by
  have hget := fun j hj => geqrf_go_getElem vendor handle m n lda
    (if m < n then m else n) w b batch_size.toNat 0 a_ptr tau_ptr ip none j hj
  refine ⟨?_, ?_, ?_, ?_, ?_, ?_⟩
  · have := map_of_getElem _
      (geqrfCallAt handle m n lda (if m < n then m else n) w b a_ptr tau_ptr ip)
      GeqrfCall.a hget
    simpa [geqrf_loop, geqrfCallAt] using this
  · have := map_of_getElem _
      (geqrfCallAt handle m n lda (if m < n then m else n) w b a_ptr tau_ptr ip)
      GeqrfCall.tau hget
    simpa [geqrf_loop, geqrfCallAt] using this
  · have := map_of_getElem _
      (geqrfCallAt handle m n lda (if m < n then m else n) w b a_ptr tau_ptr ip)
      GeqrfCall.lda hget
    simpa [geqrf_loop, geqrfCallAt, List.map_const', List.length_range]
      using this
  · have := map_of_getElem _
      (geqrfCallAt handle m n lda (if m < n then m else n) w b a_ptr tau_ptr ip)
      GeqrfCall.work hget
    simpa [geqrf_loop, geqrfCallAt, List.map_const', List.length_range]
      using this
  · have := map_of_getElem _
      (geqrfCallAt handle m n lda (if m < n then m else n) w b a_ptr tau_ptr ip)
      GeqrfCall.buffersize hget
    simpa [geqrf_loop, geqrfCallAt, List.map_const', List.length_range]
      using this
  · have := map_of_getElem _
      (geqrfCallAt handle m n lda (if m < n then m else n) w b a_ptr tau_ptr ip)
      GeqrfCall.info hget
    simpa [geqrf_loop, geqrfCallAt] using this

theorem orgqr_loop_hip_field_maps
    (vendor : Nat → Int)
    (handle m n k a_ptr lda tau_ptr w b ip batch_size origin_n : Int) :
    (orgqr_loop_hip vendor handle m n k a_ptr lda tau_ptr w b ip batch_size
      origin_n).2.map OrgqrCall.a =
      (List.range (orgqr_loop_hip vendor handle m n k a_ptr lda tau_ptr w b ip
        batch_size origin_n).2.length).map
        (fun j : Nat => a_ptr + (j : Int) * (m * origin_n)) ∧
    (orgqr_loop_hip vendor handle m n k a_ptr lda tau_ptr w b ip batch_size
      origin_n).2.map OrgqrCall.tau =
      (List.range (orgqr_loop_hip vendor handle m n k a_ptr lda tau_ptr w b ip
        batch_size origin_n).2.length).map
        (fun j : Nat => tau_ptr + (j : Int) * k) ∧
    (orgqr_loop_hip vendor handle m n k a_ptr lda tau_ptr w b ip batch_size
      origin_n).2.map OrgqrCall.work =
      List.replicate (orgqr_loop_hip vendor handle m n k a_ptr lda tau_ptr w b
        ip batch_size origin_n).2.length w ∧
    (orgqr_loop_hip vendor handle m n k a_ptr lda tau_ptr w b ip batch_size
      origin_n).2.map OrgqrCall.buffersize =
      List.replicate (orgqr_loop_hip vendor handle m n k a_ptr lda tau_ptr w b
        ip batch_size origin_n).2.length b ∧
    (orgqr_loop_hip vendor handle m n k a_ptr lda tau_ptr w b ip batch_size
      origin_n).2.map OrgqrCall.info =
      (List.range (orgqr_loop_hip vendor handle m n k a_ptr lda tau_ptr w b ip
        batch_size origin_n).2.length).map (fun j : Nat => ip + (j : Int)) := by
  have hget := fun j hj => orgqr_go_getElem vendor handle m n k lda w b
    origin_n batch_size.toNat 0 a_ptr tau_ptr ip none j hj
  refine ⟨?_, ?_, ?_, ?_, ?_⟩
  · have := map_of_getElem _
      (orgqrCallAt handle m n k lda w b origin_n a_ptr tau_ptr ip)
      OrgqrCall.a hget
    simpa [orgqr_loop_hip, orgqrCallAt] using this
  · have := map_of_getElem _
      (orgqrCallAt handle m n k lda w b origin_n a_ptr tau_ptr ip)
      OrgqrCall.tau hget
    simpa [orgqr_loop_hip, orgqrCallAt] using this
  · have := map_of_getElem _
      (orgqrCallAt handle m n k lda w b origin_n a_ptr tau_ptr ip)
      OrgqrCall.work hget
    simpa [orgqr_loop_hip, orgqrCallAt, List.map_const', List.length_range]
      using this
  · have := map_of_getElem _
      (orgqrCallAt handle m n k lda w b origin_n a_ptr tau_ptr ip)
      OrgqrCall.buffersize hget
    simpa [orgqr_loop_hip, orgqrCallAt, List.map_const', List.length_range]
      using this
  · have := map_of_getElem _
      (orgqrCallAt handle m n k lda w b origin_n a_ptr tau_ptr ip)
      OrgqrCall.info hget
    simpa [orgqr_loop_hip, orgqrCallAt] using this

/-- C8 counterexample: two invocations of the HIP `geqrf_loop` (and of the
HIP `orgqr_loop`) that differ only in `w_ptr` produce different vendor-call
sequences — the workspace pointer is forwarded verbatim into the vendor
call, so the parameters are not ignored by the dispatcher. -/
theorem c8_counterexample :
    (geqrf_loop_hip (fun _ => 0) 1 2 2 0 2 100 0 16 300 1).2.map
      GeqrfCall.work = [0] ∧
    (geqrf_loop_hip (fun _ => 0) 1 2 2 0 2 100 7 16 300 1).2.map
      GeqrfCall.work = [7] ∧
    (orgqr_loop_hip (fun _ => 0) 1 2 2 2 0 2 100 0 16 300 1 2).2.map
      OrgqrCall.work = [0] ∧
    (orgqr_loop_hip (fun _ => 0) 1 2 2 2 0 2 100 7 16 300 1 2).2.map
      OrgqrCall.work = [7] ∧
    ((0 : Int) == 7) = false :=
  ⟨by decide, by decide, by decide, by decide, by decide⟩

/-- C8 amended: the HIP `geqrf_loop` and `orgqr_loop` forward `w_ptr`,
`buffersize` and `info_ptr` verbatim into every vendor call (`info`
advancing by one per item), so call sequences do depend on them; but the
three parameters never influence the dispatcher's control flow: the
returned status, the number of vendor calls and the matrix and tau
addresses passed are identical across invocations differing only in
`w_ptr`, `buffersize` or `info_ptr`. -/
theorem c8_amended_aux_params_forwarded
    (vendor : Nat → Int)
    (handle m n k a_ptr lda tau_ptr batch_size origin_n : Int)
    (w b ip w' b' ip' : Int) :
    ((geqrf_loop_hip vendor handle m n a_ptr lda tau_ptr w b ip batch_size).1 =
      (geqrf_loop_hip vendor handle m n a_ptr lda tau_ptr w' b' ip'
        batch_size).1 ∧
     (geqrf_loop_hip vendor handle m n a_ptr lda tau_ptr w b ip
        batch_size).2.length =
      (geqrf_loop_hip vendor handle m n a_ptr lda tau_ptr w' b' ip'
        batch_size).2.length ∧
     (geqrf_loop_hip vendor handle m n a_ptr lda tau_ptr w b ip
        batch_size).2.map GeqrfCall.a =
      (geqrf_loop_hip vendor handle m n a_ptr lda tau_ptr w' b' ip'
        batch_size).2.map GeqrfCall.a ∧
     (geqrf_loop_hip vendor handle m n a_ptr lda tau_ptr w b ip
        batch_size).2.map GeqrfCall.tau =
      (geqrf_loop_hip vendor handle m n a_ptr lda tau_ptr w' b' ip'
        batch_size).2.map GeqrfCall.tau ∧
     (geqrf_loop_hip vendor handle m n a_ptr lda tau_ptr w b ip
        batch_size).2.map GeqrfCall.work =
      List.replicate (geqrf_loop_hip vendor handle m n a_ptr lda tau_ptr w b
        ip batch_size).2.length w ∧
     (geqrf_loop_hip vendor handle m n a_ptr lda tau_ptr w b ip
        batch_size).2.map GeqrfCall.buffersize =
      List.replicate (geqrf_loop_hip vendor handle m n a_ptr lda tau_ptr w b
        ip batch_size).2.length b ∧
     (geqrf_loop_hip vendor handle m n a_ptr lda tau_ptr w b ip
        batch_size).2.map GeqrfCall.info =
      (List.range (geqrf_loop_hip vendor handle m n a_ptr lda tau_ptr w b ip
        batch_size).2.length).map (fun j : Nat => ip + (j : Int))) ∧
    ((orgqr_loop_hip vendor handle m n k a_ptr lda tau_ptr w b ip batch_size
        origin_n).1 =
      (orgqr_loop_hip vendor handle m n k a_ptr lda tau_ptr w' b' ip'
        batch_size origin_n).1 ∧
     (orgqr_loop_hip vendor handle m n k a_ptr lda tau_ptr w b ip batch_size
        origin_n).2.length =
      (orgqr_loop_hip vendor handle m n k a_ptr lda tau_ptr w' b' ip'
        batch_size origin_n).2.length ∧
     (orgqr_loop_hip vendor handle m n k a_ptr lda tau_ptr w b ip batch_size
        origin_n).2.map OrgqrCall.a =
      (orgqr_loop_hip vendor handle m n k a_ptr lda tau_ptr w' b' ip'
        batch_size origin_n).2.map OrgqrCall.a ∧
     (orgqr_loop_hip vendor handle m n k a_ptr lda tau_ptr w b ip batch_size
        origin_n).2.map OrgqrCall.tau =
      (orgqr_loop_hip vendor handle m n k a_ptr lda tau_ptr w' b' ip'
        batch_size origin_n).2.map OrgqrCall.tau ∧
     (orgqr_loop_hip vendor handle m n k a_ptr lda tau_ptr w b ip batch_size
        origin_n).2.map OrgqrCall.work =
      List.replicate (orgqr_loop_hip vendor handle m n k a_ptr lda tau_ptr w b
        ip batch_size origin_n).2.length w ∧
     (orgqr_loop_hip vendor handle m n k a_ptr lda tau_ptr w b ip batch_size
        origin_n).2.map OrgqrCall.buffersize =
      List.replicate (orgqr_loop_hip vendor handle m n k a_ptr lda tau_ptr w b
        ip batch_size origin_n).2.length b ∧
     (orgqr_loop_hip vendor handle m n k a_ptr lda tau_ptr w b ip batch_size
        origin_n).2.map OrgqrCall.info =
      (List.range (orgqr_loop_hip vendor handle m n k a_ptr lda tau_ptr w b ip
        batch_size origin_n).2.length).map (fun j : Nat => ip + (j : Int))) := by
  have hg := geqrf_go_oblivious vendor batch_size.toNat 0 none
    handle m n lda (if m < n then m else n) w b a_ptr tau_ptr ip
    handle m n lda (if m < n then m else n) w' b' a_ptr tau_ptr ip'
  have hmapg := geqrf_loop_field_maps vendor handle m n a_ptr lda tau_ptr w b
    ip batch_size
  have hmapg' := geqrf_loop_field_maps vendor handle m n a_ptr lda tau_ptr w'
    b' ip' batch_size
  have hleng : (geqrf_loop vendor handle m n a_ptr lda tau_ptr w b ip
      batch_size).2.length =
      (geqrf_loop vendor handle m n a_ptr lda tau_ptr w' b' ip'
      batch_size).2.length := hg.2
  have ho := orgqr_go_oblivious vendor batch_size.toNat 0 none
    handle m n k lda w b origin_n a_ptr tau_ptr ip
    handle m n k lda w' b' origin_n a_ptr tau_ptr ip'
  have hmapo := orgqr_loop_hip_field_maps vendor handle m n k a_ptr lda
    tau_ptr w b ip batch_size origin_n
  have hmapo' := orgqr_loop_hip_field_maps vendor handle m n k a_ptr lda
    tau_ptr w' b' ip' batch_size origin_n
  have hleno : (orgqr_loop_hip vendor handle m n k a_ptr lda tau_ptr w b ip
      batch_size origin_n).2.length =
      (orgqr_loop_hip vendor handle m n k a_ptr lda tau_ptr w' b' ip'
      batch_size origin_n).2.length := ho.2
  constructor
  · refine ⟨hg.1, hg.2, ?_, ?_, hmapg.2.2.2.1, hmapg.2.2.2.2.1,
      hmapg.2.2.2.2.2⟩
    · show (geqrf_loop vendor handle m n a_ptr lda tau_ptr w b ip
          batch_size).2.map GeqrfCall.a =
        (geqrf_loop vendor handle m n a_ptr lda tau_ptr w' b' ip'
          batch_size).2.map GeqrfCall.a
      rw [hmapg.1, hmapg'.1, hleng]
    · show (geqrf_loop vendor handle m n a_ptr lda tau_ptr w b ip
          batch_size).2.map GeqrfCall.tau =
        (geqrf_loop vendor handle m n a_ptr lda tau_ptr w' b' ip'
          batch_size).2.map GeqrfCall.tau
      rw [hmapg.2.1, hmapg'.2.1, hleng]
  · refine ⟨ho.1, ho.2, ?_, ?_, hmapo.2.2.1, hmapo.2.2.2.1, hmapo.2.2.2.2⟩
    · rw [hmapo.1, hmapo'.1, hleno]
    · rw [hmapo.2.1, hmapo'.2.1, hleno]

/-- C10: in `geqrf_loop` (identical on both backends), the per-item matrix
advance is exactly `m * n` elements regardless of `lda`: `lda` is forwarded
verbatim to every vendor call but never enters the pointer arithmetic, so
the matrix addresses are unchanged when `lda` changes. -/
theorem c10_geqrf_matrix_stride_is_m_n
    (vendor : Nat → Int)
    (handle m n a_ptr lda lda' tau_ptr w b ip batch_size : Int) :
    geqrf_loop vendor handle m n a_ptr lda tau_ptr w b ip batch_size =
      geqrf_loop_hip vendor handle m n a_ptr lda tau_ptr w b ip batch_size ∧
    (geqrf_loop vendor handle m n a_ptr lda tau_ptr w b ip batch_size).2.map
      GeqrfCall.a =
      (List.range (geqrf_loop vendor handle m n a_ptr lda tau_ptr w b ip
        batch_size).2.length).map (fun j : Nat => a_ptr + (j : Int) * (m * n)) ∧
    (geqrf_loop vendor handle m n a_ptr lda tau_ptr w b ip batch_size).2.map
      GeqrfCall.lda =
      List.replicate (geqrf_loop vendor handle m n a_ptr lda tau_ptr w b ip
        batch_size).2.length lda ∧
    (geqrf_loop vendor handle m n a_ptr lda tau_ptr w b ip batch_size).2.map
      GeqrfCall.a =
      (geqrf_loop vendor handle m n a_ptr lda' tau_ptr w b ip
        batch_size).2.map GeqrfCall.a ∧
    (geqrf_loop vendor handle m n a_ptr lda tau_ptr w b ip
      batch_size).2.length =
      (geqrf_loop vendor handle m n a_ptr lda' tau_ptr w b ip
        batch_size).2.length := by
  have hmap := geqrf_loop_field_maps vendor handle m n a_ptr lda tau_ptr w b
    ip batch_size
  have hmap' := geqrf_loop_field_maps vendor handle m n a_ptr lda' tau_ptr w b
    ip batch_size
  have hobl := geqrf_go_oblivious vendor batch_size.toNat 0 none
    handle m n lda (if m < n then m else n) w b a_ptr tau_ptr ip
    handle m n lda' (if m < n then m else n) w b a_ptr tau_ptr ip
  have hlen : (geqrf_loop vendor handle m n a_ptr lda tau_ptr w b ip
      batch_size).2.length =
      (geqrf_loop vendor handle m n a_ptr lda' tau_ptr w b ip
      batch_size).2.length := hobl.2
  refine ⟨rfl, hmap.1, hmap.2.2.1, ?_, hlen⟩
  rw [hmap.1, hmap'.1, hlen]
